import Mathlib

/-!
Verification of the CSVD_laber video-segment annotation tool's data-model and
persistence core, shallowly embedded from the Python sources
(`data_manager3.py`, `annotation_panel.py`, `config2.py`, `main1.py`,
`video_annotator.py`).

Python floats are modelled as exact rationals together with an explicit
round-to-nearest-even binary64 rounding function applied at every float
operation, mirroring IEEE-754 double arithmetic (overflow and subnormals are
out of range for this code and are not modelled).  Python strings are modelled
as Lean strings / character lists; `str.split(sep)` with a one-character
separator is modelled by `splitOnChar`, `str.strip()` by `pyStrip` (ASCII
whitespace; the exotic Unicode whitespace classes are not exercised here), and
the builtin `int(text)` by `pyInt` (optional surrounding whitespace, optional
sign, ASCII digits with single underscores between digits; Python additionally
accepts non-ASCII decimal digits, which no claim depends on).
-/

namespace CSVD

/-! ## Data model (`config2.py`) -/

/-- One annotated interval, the dict built by `get_segment_template` in
`config2.py` plus the `noun`/`verb` keys retrofitted by the panel. -/
structure Segment where
  start_time : ℚ
  end_time : ℚ
  description : String
  noun : String
  verb : String
  tags : List String
deriving DecidableEq

/-- The per-video record of `get_annotation_template` in `config2.py`.
The template has no `status` key, and legacy files may lack it, hence
`status : Option String`; `data_manager3.py` reads it with default `未标注`. -/
structure AnnRecord where
  video_path : String
  video_name : String
  duration : ℚ
  segments : List Segment
  annotated : Bool
  annotator : String
  timestamp : String
  status : Option String
deriving DecidableEq

/-- `config2.get_segment_template`. -/
def get_segment_template : Segment :=
  { start_time := 0, end_time := 0, description := "", noun := "", verb := "",
    tags := [] }

/-- `config2.get_annotation_template`. -/
def get_ann_template : AnnRecord :=
  { video_path := "", video_name := "", duration := 0, segments := [],
    annotated := false, annotator := "", timestamp := "", status := none }

/-- `config2.DEFAULT_TAGS`. -/
def DEFAULT_TAGS : List String :=
  ["安全帽佩戴", "安全绳使用", "高空作业", "脚手架作业", "焊接", "切割", "吊装",
   "搬运材料", "浇筑混凝土", "钢筋绑扎", "模板安装", "抹灰", "砌墙", "电气安装",
   "管道安装", "测量放线", "安全检查", "危险行为", "机械操作", "清理现场"]

/-- `DataManager.create_segment` (`data_manager3.py` lines 216-224): fill the
template with the given fields; `tags or []` maps `None` (and `[]`) to `[]`. -/
def create_segment (start_time end_time : ℚ) (description : String)
    (tags : Option (List String)) : Segment :=
  let segment := get_segment_template
  { segment with
    start_time := start_time
    end_time := end_time
    description := description
    tags := match tags with | none => [] | some l => l }

/-- `DataManager.load_annotation` (`data_manager3.py` lines 94-113): return the
stored record when the backing file exists and parses, otherwise the template
with path, basename and probed duration filled in.  `disk = none` covers both a
missing file and a file whose JSON parse failed (the code logs and falls
through to the template in both cases). -/
def load_record (video_path video_name : String) (duration : ℚ)
    (disk : Option AnnRecord) : AnnRecord :=
  match disk with
  | some r => r
  | none =>
    { get_ann_template with
      video_path := video_path, video_name := video_name, duration := duration }

/-- `DataManager.save_annotation` stamps `timestamp` on the record before
serializing (`annotation_data['timestamp'] = datetime.now().isoformat()`). -/
def save_record (now : String) (r : AnnRecord) : AnnRecord :=
  { r with timestamp := now }

/-! ## C10: `create_segment` performs no validation -/

/-- C10: `DataManager.create_segment` performs no validation: for every
`start_time` and `end_time` — the universal quantification includes
`start_time >= end_time`, negative values, and end times exceeding any
duration — it returns the segment dict carrying exactly the given start, end,
description and tags (tags defaulting to `[]` when absent), with empty
`noun`/`verb` fields from the template.  The time-ordering and duration checks
live only in the UI add path (`AnnotationPanel.add_segment`), not here. -/
theorem C10_create_segment_no_validation (st en : ℚ) (description : String)
    (tags : Option (List String)) :
    create_segment st en description tags =
      { start_time := st, end_time := en, description := description,
        noun := "", verb := "", tags := tags.getD [] } := by
  cases tags <;> rfl

/-! ## C9: vocabulary add -/

/-- Python-style ASCII whitespace test ( `str.strip()` with no argument). -/
def isPySpace (c : Char) : Bool :=
  c = ' ' ∨ c = '\t' ∨ c = '\n' ∨ c = '\r' ∨ c = '\x0b' ∨ c = '\x0c'

/-- `text.strip()` on a character list: drop leading and trailing whitespace. -/
def pyStripChars (l : List Char) : List Char :=
  ((l.dropWhile isPySpace).reverse.dropWhile isPySpace).reverse

/-- `text.strip()` on strings. -/
def pyStrip (s : String) : String :=
  String.mk (pyStripChars s.data)

/-- `DataManager.add_tag` (`data_manager3.py` lines 164-169): `if new_tag and
new_tag not in self.current_tags` — append and return `True`, else `False`.
Note: no `.strip()` here; only the empty string is falsy. -/
def add_tag (current_tags : List String) (new_tag : String) :
    Bool × List String :=
  if new_tag ≠ "" ∧ new_tag ∉ current_tags then (true, current_tags ++ [new_tag])
  else (false, current_tags)

/-- `AnnotationPanel.add_custom_noun` / `add_custom_verb`
(`annotation_panel.py` lines 332-346): strip the combo text first, then append
when non-empty and new.  These UI handlers return nothing. -/
def add_custom_noun (text : String) (noun_list : List String) : List String :=
  let noun := pyStrip text
  if noun ≠ "" ∧ noun ∉ noun_list then noun_list ++ [noun] else noun_list

/-- C9 counterexample: the claim says a whitespace-only term makes `add`
return false and leave the list unchanged, but `DataManager.add_tag " "` on
the default tag list returns `True` and appends `" "` — the data-layer `add`
does not strip its argument. -/
theorem C9_counterexample :
    (add_tag DEFAULT_TAGS " ").1 = true ∧
    (add_tag DEFAULT_TAGS " ").2 = DEFAULT_TAGS ++ [" "] ∧
    (add_tag DEFAULT_TAGS " ").2 ≠ DEFAULT_TAGS := by
  refine ⟨by decide, by decide, by decide⟩

/-- C9 (amended): `add_tag` returns true and appends exactly when the term is
non-empty (whitespace-only terms count as non-empty — the data layer does not
strip) and not already present under case-sensitive equality; otherwise it
returns false and leaves the list unchanged.  The noun/verb UI paths strip
their input first, so there a whitespace-only entry is a no-op, but they
return no boolean. -/
theorem C9_add_tag_spec (t : String) (l : List String) (txt : String)
    (nl : List String) :
    ((add_tag l t).1 = true ↔ t ≠ "" ∧ t ∉ l) ∧
    ((add_tag l t).2 = if t ≠ "" ∧ t ∉ l then l ++ [t] else l) ∧
    (add_custom_noun txt nl =
      if pyStrip txt ≠ "" ∧ pyStrip txt ∉ nl then nl ++ [pyStrip txt] else nl) := by
  unfold add_tag add_custom_noun
  refine ⟨?_, ?_, rfl⟩ <;> split <;> simp_all

/-! ## C3: export bundle -/

/-- The consolidated export file shape written by
`DataManager.export_all_annotations`. -/
structure ExportBundle where
  total_videos : ℕ
  export_time : String
  annotations : List AnnRecord
deriving DecidableEq

/-- `DataManager.export_all_annotations` (`data_manager3.py` lines 141-162):
keep the loaded records whose `segments` list is truthy (non-empty), set
`total_videos` to their number and stamp `export_time`.  The function is
given the records already loaded from the catalog, in catalog order. -/
def export_all (export_time : String) (records : List AnnRecord) :
    ExportBundle :=
  let all := records.filter (fun a => decide (a.segments ≠ []))
  { total_videos := all.length, export_time := export_time, annotations := all }

/-- C3: the bundle contains exactly the records with non-empty `segments`
(in catalog order), `total_videos` is their count, and two runs over identical
underlying records agree on `total_videos` and `annotations`, differing only
in `export_time`. -/
theorem C3_export_filter_idempotent (t1 t2 : String) (records : List AnnRecord)
    (r : AnnRecord) :
    (r ∈ (export_all t1 records).annotations ↔ r ∈ records ∧ r.segments ≠ []) ∧
    (export_all t1 records).total_videos =
      (export_all t1 records).annotations.length ∧
    (export_all t1 records).annotations =
      records.filter (fun a => decide (a.segments ≠ [])) ∧
    (export_all t1 records).total_videos = (export_all t2 records).total_videos ∧
    (export_all t1 records).annotations = (export_all t2 records).annotations := by
  refine ⟨?_, rfl, rfl, rfl, rfl⟩
  simp [export_all, List.mem_filter]

/-! ## C1: the `annotated` flag tracks segment-list non-emptiness

State machine for one video's record, embedded from the `MainWindow` handlers
in `main1.py` (each mutation ends with `self.save_annotation(silent=True)`,
which stamps the timestamp on the in-memory record and writes it to disk). -/

/-- The in-memory record being edited plus the backing file (none = absent). -/
structure EditorState where
  mem : AnnRecord
  disk : Option AnnRecord
deriving DecidableEq

/-- `MainWindow.save_annotation` (`main1.py` lines 582-594): stamp timestamp,
write to disk (success path; failure handling is claim C5's subject). -/
def opSave (now : String) (st : EditorState) : EditorState :=
  let r := save_record now st.mem
  { mem := r, disk := some r }

/-- `MainWindow.on_segment_added` (`main1.py` lines 566-572): append the
segment, set `annotated = True`, save. -/
def on_segment_added (now : String) (seg : Segment) (st : EditorState) :
    EditorState :=
  opSave now
    { st with
      mem := { st.mem with segments := st.mem.segments ++ [seg], annotated := true } }

/-- `MainWindow.on_segment_deleted` (`main1.py` lines 574-580): guarded by
`0 <= index < len(segments)`, pop the index, recompute
`annotated = len(segments) > 0`, save. -/
def on_segment_deleted (now : String) (index : ℤ) (st : EditorState) :
    EditorState :=
  if 0 ≤ index ∧ index < (st.mem.segments.length : ℤ) then
    let segs := st.mem.segments.eraseIdx index.toNat
    opSave now
      { st with
        mem :=
          { st.mem with
            segments := segs
            annotated := decide (0 < segs.length) } }
  else st

/-- `MainWindow.delete_last_segment` (`main1.py` lines 278-300): no-op on an
empty list; otherwise, when the user confirms the dialog, pop the last
segment, recompute `annotated = len(segments) > 0`, save. -/
def delete_last_segment (now : String) (confirm : Bool) (st : EditorState) :
    EditorState :=
  if st.mem.segments = [] then st
  else if confirm then
    let segs := st.mem.segments.dropLast
    opSave now
      { st with
        mem :=
          { st.mem with
            segments := segs
            annotated := decide (0 < segs.length) } }
  else st

/-- `MainWindow.load_video` (`main1.py` lines 506-518): replace the in-memory
record with `DataManager.load_annotation` of the backing file. -/
def opLoad (video_path video_name : String) (duration : ℚ) (st : EditorState) :
    EditorState :=
  { st with mem := load_record video_path video_name duration st.disk }

/-- The operations of claim C1: add a segment, delete by index, delete last,
save, and (re)load the record. -/
inductive EditOp where
  | addSeg (now : String) (seg : Segment)
  | delSeg (now : String) (index : ℤ)
  | delLast (now : String) (confirm : Bool)
  | save (now : String)
  | load (video_path video_name : String) (duration : ℚ)
deriving DecidableEq

def applyOp (o : EditOp) (st : EditorState) : EditorState :=
  match o with
  | .addSeg now seg => on_segment_added now seg st
  | .delSeg now index => on_segment_deleted now index st
  | .delLast now confirm => delete_last_segment now confirm st
  | .save now => opSave now st
  | .load p n d => opLoad p n d st

def runOps (ops : List EditOp) (st : EditorState) : EditorState :=
  ops.foldl (fun s o => applyOp o s) st

/-- The claimed invariant on one record. -/
def annotatedOk (r : AnnRecord) : Prop :=
  (r.annotated = true ↔ r.segments ≠ [])

/-- The invariant on the whole editor state: it holds of the in-memory record
and of whatever is on disk. -/
def stateOk (st : EditorState) : Prop :=
  annotatedOk st.mem ∧ ∀ r, st.disk = some r → annotatedOk r

/-- The state right after the app starts on a video with no backing file:
`current_annotation = load_annotation(path)` synthesizes the template. -/
def initState (video_path video_name : String) (duration : ℚ) : EditorState :=
  { mem := load_record video_path video_name duration none, disk := none }

theorem annotatedOk_save (now : String) (r : AnnRecord) (h : annotatedOk r) :
    annotatedOk (save_record now r) := h

theorem stateOk_opSave (now : String) (st : EditorState) (h : annotatedOk st.mem) :
    stateOk (opSave now st) := by
  refine ⟨annotatedOk_save now _ h, ?_⟩
  intro r hr
  cases hr
  exact annotatedOk_save now _ h

theorem stateOk_applyOp (o : EditOp) (st : EditorState) (h : stateOk st) :
    stateOk (applyOp o st) := by
  obtain ⟨hmem, hdisk⟩ := h
  cases o with
  | addSeg now seg =>
    refine stateOk_opSave now _ ?_
    simp [applyOp, on_segment_added, annotatedOk]
  | delSeg now index =>
    show stateOk (on_segment_deleted now index st)
    unfold on_segment_deleted
    split
    · refine stateOk_opSave now _ ?_
      simp only [annotatedOk, decide_eq_true_eq]
      exact ⟨fun h0 => List.ne_nil_of_length_pos h0, fun h0 => List.length_pos.mpr h0⟩
    · exact ⟨hmem, hdisk⟩
  | delLast now confirm =>
    show stateOk (delete_last_segment now confirm st)
    unfold delete_last_segment
    split
    · exact ⟨hmem, hdisk⟩
    · split
      · refine stateOk_opSave now _ ?_
        simp only [annotatedOk, decide_eq_true_eq]
        exact ⟨fun h0 => List.ne_nil_of_length_pos h0, fun h0 => List.length_pos.mpr h0⟩
      · exact ⟨hmem, hdisk⟩
  | save now => exact stateOk_opSave now _ hmem
  | load p n d =>
    show stateOk (opLoad p n d st)
    cases hd : st.disk with
    | none =>
      refine ⟨?_, ?_⟩
      · simp [opLoad, load_record, hd, annotatedOk, get_ann_template]
      · intro r hr
        exact hdisk r hr
    | some r =>
      refine ⟨?_, ?_⟩
      · simpa [opLoad, load_record, hd] using hdisk r hd
      · intro r2 hr
        exact hdisk r2 hr

theorem stateOk_runOps (ops : List EditOp) (st : EditorState) (h : stateOk st) :
    stateOk (runOps ops st) := by
  induction ops generalizing st with
  | nil => exact h
  | cons o rest ih => exact ih _ (stateOk_applyOp o st h)

/-- C1: starting from a freshly loaded record with no backing file, after any
sequence of add-segment, delete-by-index, delete-last, save and load
operations, the record's `annotated` field equals whether its `segments` list
is non-empty — and so does the `annotated` field of whatever record the
backing file holds. -/
theorem C1_annotated_invariant (ops : List EditOp)
    (video_path video_name : String) (duration : ℚ) :
    stateOk (runOps ops (initState video_path video_name duration)) := by
  refine stateOk_runOps ops _ ⟨?_, ?_⟩
  · simp [initState, load_record, get_ann_template, annotatedOk]
  · intro r hr
    simp [initState] at hr

/-! ## C2: lazy status promotion in `get_video_status` -/

/-- `annotation.get('status', '未标注')`. -/
def statusOf (r : AnnRecord) : String :=
  r.status.getD "未标注"

/-- `DataManager.get_video_status` (`data_manager3.py` lines 171-185): load
the record (`tmpl` is the synthesized template for this video, used when
`disk = none`); if it has segments and its status is `未标注`, set the status
to `已标注`, persist (the save stamps the timestamp), and return the promoted
status; otherwise return the stored status without writing. -/
def get_video_status (now : String) (tmpl : AnnRecord)
    (disk : Option AnnRecord) : String × Option AnnRecord :=
  if (disk.getD tmpl).segments ≠ [] ∧ statusOf (disk.getD tmpl) = "未标注" then
    ("已标注",
      some (save_record now { disk.getD tmpl with status := some "已标注" }))
  else (statusOf (disk.getD tmpl), disk)

/-- Reading twice is the same as reading once: the second read returns the
same status and leaves the backing file exactly as the first read left it. -/
theorem get_video_status_idem (now now2 : String) (tmpl : AnnRecord)
    (disk : Option AnnRecord) :
    get_video_status now2 tmpl (get_video_status now tmpl disk).2 =
      get_video_status now tmpl disk := by
  by_cases hc : (disk.getD tmpl).segments ≠ [] ∧ statusOf (disk.getD tmpl) = "未标注"
  · have h1 : get_video_status now tmpl disk =
        ("已标注",
          some (save_record now { disk.getD tmpl with status := some "已标注" })) := by
      rw [get_video_status, if_pos hc]
    rw [h1, get_video_status, if_neg]
    · simp [statusOf, save_record]
    · rintro ⟨-, habs⟩
      rw [show statusOf ((some (save_record now
          { disk.getD tmpl with status := some "已标注" })).getD tmpl) = "已标注"
          from rfl] at habs
      exact absurd habs (by decide)
  · have h1 : get_video_status now tmpl disk = (statusOf (disk.getD tmpl), disk) := by
      rw [get_video_status, if_neg hc]
    rw [h1, get_video_status, if_neg hc]

/-- C2: reading a record with non-empty segments and status `未标注` promotes
it to `已标注` exactly once — the promotion is persisted with the timestamp
stamp of the save, and any later read returns the same status and does not
touch the file again; a record whose stored status is `非必要` is returned
as-is (never auto-promoted, no write), even when its segments are non-empty. -/
theorem C2_status_promotion (now : String) (tmpl a : AnnRecord)
    (h1 : a.segments ≠ []) (h2 : statusOf a = "未标注") :
    (get_video_status now tmpl (some a)).1 = "已标注" ∧
    (get_video_status now tmpl (some a)).2 =
      some (save_record now { a with status := some "已标注" }) ∧
    (∀ now2 : String,
      get_video_status now2 tmpl ((get_video_status now tmpl (some a)).2) =
        ("已标注", (get_video_status now tmpl (some a)).2)) ∧
    (∀ (b : AnnRecord) (d : Option AnnRecord), statusOf (d.getD b) = "非必要" →
      get_video_status now b d = ("非必要", d)) := by
  have hpos : get_video_status now tmpl (some a) =
      ("已标注", some (save_record now { a with status := some "已标注" })) := by
    rw [get_video_status, Option.getD_some, if_pos ⟨h1, h2⟩]
  refine ⟨by rw [hpos], by rw [hpos], ?_, ?_⟩
  · intro now2
    rw [get_video_status_idem now now2, hpos]
  · intro b d hd
    rw [get_video_status, if_neg, hd]
    rintro ⟨-, habs⟩
    rw [hd] at habs
    exact absurd habs (by decide)

/-- C2 witness data: a record with one segment and no stored status key. -/
def c2seg : Segment := create_segment 1 2 "lifting" none

def c2rec : AnnRecord :=
  { video_path := "v.mp4", video_name := "v.mp4", duration := 10,
    segments := [c2seg], annotated := true, annotator := "", timestamp := "t0",
    status := none }

def c2recNN : AnnRecord :=
  { c2rec with status := some "非必要" }

theorem C2_witness :
    (get_video_status "T1" get_ann_template (some c2rec)).1 = "已标注" ∧
    (get_video_status "T1" get_ann_template (some c2rec)).2 =
      some (save_record "T1" { c2rec with status := some "已标注" }) ∧
    get_video_status "T2" get_ann_template
        ((get_video_status "T1" get_ann_template (some c2rec)).2) =
      ("已标注", (get_video_status "T1" get_ann_template (some c2rec)).2) ∧
    get_video_status "T1" get_ann_template (some c2recNN) =
      ("非必要", some c2recNN) := by
  have h := C2_status_promotion "T1" get_ann_template c2rec (by decide)
    (by decide)
  exact ⟨h.1, h.2.1, h.2.2.1 "T2", h.2.2.2 c2recNN (some c2recNN) (by decide)⟩

/-! ## C8: status counts sum to the catalog size -/

/-- One `counts[status] = counts.get(status, 0) + 1` step; the dict of
`get_status_counts` is modelled as a total function with default 0. -/
def bump (counts : String → ℕ) (s : String) : String → ℕ :=
  fun k => if k = s then counts s + 1 else counts k

/-- The per-video loop of `get_status_counts`: call `get_video_status` on each
video (possibly persisting a promotion) and collect the returned statuses and
the updated backing files.  Each catalog entry is the pair of the video's
synthesized template and its backing file. -/
def statuses_of_list (now : String) :
    List (AnnRecord × Option AnnRecord) →
      List String × List (AnnRecord × Option AnnRecord)
  | [] => ([], [])
  | (tmpl, d) :: rest =>
    let r := get_video_status now tmpl d
    let rec2 := statuses_of_list now rest
    (r.1 :: rec2.1, (tmpl, r.2) :: rec2.2)

/-- `DataManager.get_status_counts` (`data_manager3.py` lines 199-210):
start from `{"未标注": 0, "已标注": 0, "非必要": 0}` and bump the key returned
by `get_video_status` for every video. -/
def get_status_counts (now : String)
    (vids : List (AnnRecord × Option AnnRecord)) :
    (String → ℕ) × List (AnnRecord × Option AnnRecord) :=
  let r := statuses_of_list now vids
  (r.1.foldl bump (fun _ => 0), r.2)

/-- A record's stored status (with the `未标注` default) is one of the three
catalogued states.  Every file the tool itself writes satisfies this:
`set_video_status` rejects other strings and promotion writes `已标注`. -/
def validStatus (r : AnnRecord) : Prop :=
  statusOf r = "未标注" ∨ statusOf r = "已标注" ∨ statusOf r = "非必要"

instance : DecidablePred validStatus := fun r => by
  unfold validStatus
  infer_instance

theorem get_video_status_valid (now : String) (tmpl : AnnRecord)
    (d : Option AnnRecord) (h : validStatus (d.getD tmpl)) :
    (get_video_status now tmpl d).1 = "未标注" ∨
    (get_video_status now tmpl d).1 = "已标注" ∨
    (get_video_status now tmpl d).1 = "非必要" := by
  by_cases hc : (d.getD tmpl).segments ≠ [] ∧ statusOf (d.getD tmpl) = "未标注"
  · rw [get_video_status, if_pos hc]
    simp
  · rw [get_video_status, if_neg hc]
    exact h

theorem foldl_bump_sum (sts : List String) (c : String → ℕ)
    (h : ∀ s ∈ sts, s = "未标注" ∨ s = "已标注" ∨ s = "非必要") :
    (sts.foldl bump c) "未标注" + (sts.foldl bump c) "已标注" +
        (sts.foldl bump c) "非必要" =
      c "未标注" + c "已标注" + c "非必要" + sts.length := by
  induction sts generalizing c with
  | nil => simp
  | cons s rest ih =>
    have hrest : ∀ x ∈ rest, x = "未标注" ∨ x = "已标注" ∨ x = "非必要" :=
      fun x hx => h x (List.mem_cons_of_mem s hx)
    have hs := h s (List.mem_cons_self s rest)
    have step := ih (bump c s) hrest
    rw [List.foldl_cons, step]
    rcases hs with hs | hs | hs <;> subst hs <;> simp [bump] <;> omega

theorem statuses_length (now : String)
    (vids : List (AnnRecord × Option AnnRecord)) :
    (statuses_of_list now vids).1.length = vids.length := by
  induction vids with
  | nil => rfl
  | cons v rest ih =>
    obtain ⟨tmpl, d⟩ := v
    simp [statuses_of_list, ih]

theorem statuses_valid (now : String)
    (vids : List (AnnRecord × Option AnnRecord))
    (h : ∀ p ∈ vids, validStatus (p.2.getD p.1)) :
    ∀ s ∈ (statuses_of_list now vids).1,
      s = "未标注" ∨ s = "已标注" ∨ s = "非必要" := by
  induction vids with
  | nil => simp [statuses_of_list]
  | cons v rest ih =>
    obtain ⟨tmpl, d⟩ := v
    intro s hs
    simp only [statuses_of_list, List.mem_cons] at hs
    rcases hs with hs | hs
    · subst hs
      exact get_video_status_valid now tmpl d (h (tmpl, d) (List.mem_cons_self _ _))
    · exact ih (fun p hp => h p (List.mem_cons_of_mem _ hp)) s hs

theorem statuses_idem (now now2 : String)
    (vids : List (AnnRecord × Option AnnRecord)) :
    statuses_of_list now2 (statuses_of_list now vids).2 =
      statuses_of_list now vids := by
  induction vids with
  | nil => rfl
  | cons v rest ih =>
    obtain ⟨tmpl, d⟩ := v
    have hidem := get_video_status_idem now now2 tmpl d
    simp only [statuses_of_list, ih]
    rw [hidem]

/-- C8: over any catalog whose records carry one of the three statuses (which
is every record this tool writes), the three counts returned by
`get_status_counts` sum to the number of videos, and a second call — although
it re-triggers the lazy promotion walk — returns the same counts over the
same backing files. -/
theorem C8_status_counts_sum (now : String)
    (vids : List (AnnRecord × Option AnnRecord))
    (h : ∀ p ∈ vids, validStatus (p.2.getD p.1)) :
    (get_status_counts now vids).1 "未标注" +
        (get_status_counts now vids).1 "已标注" +
        (get_status_counts now vids).1 "非必要" = vids.length ∧
    (∀ now2 : String,
      get_status_counts now2 (get_status_counts now vids).2 =
        get_status_counts now vids) := by
  constructor
  · have hsum := foldl_bump_sum (statuses_of_list now vids).1 (fun _ => 0)
      (statuses_valid now vids h)
    simpa [get_status_counts, statuses_length] using hsum
  · intro now2
    unfold get_status_counts
    rw [statuses_idem]

/-- C8 witness data: one video with no backing file, one marked `非必要`, one
with a segment and no explicit status (gets promoted during the count). -/
def c8vids : List (AnnRecord × Option AnnRecord) :=
  [(get_ann_template, none), (get_ann_template, some c2recNN),
   (get_ann_template, some c2rec)]

theorem C8_witness :
    (get_status_counts "T1" c8vids).1 "未标注" +
        (get_status_counts "T1" c8vids).1 "已标注" +
        (get_status_counts "T1" c8vids).1 "非必要" = c8vids.length ∧
    get_status_counts "T2" (get_status_counts "T1" c8vids).2 =
      get_status_counts "T1" c8vids := by
  have h := C8_status_counts_sum "T1" c8vids (by decide)
  exact ⟨h.1, h.2 "T2"⟩

/-! ## C5: `save_annotation` failure behavior

`DataManager.save_annotation` (`data_manager3.py` lines 115-130) first runs
`annotation_path = self.get_annotation_path(video_path)` (line 119) OUTSIDE
its `try` block; `get_annotation_path` calls
`mkdir(parents=True, exist_ok=True)` (and `Path.relative_to`), so an
`OSError`/`PermissionError` on an unwritable annotation root — or a
`ValueError` from the relativization — propagates to the caller before
anything else happens.  Then, inside one `try`: (1)
`annotation_data['timestamp'] = datetime.now().isoformat()`, mutating the
caller's in-memory record; (2) `open(annotation_path, 'w')`, which truncates
any existing file; (3) `json.dump(...)`, which streams the serialization into
the file.  Exceptions from these three steps are caught and `False` is
returned; on success `True`.  There is no temp-file-and-rename step. -/

/-- Decimal digits of a natural number (fuel-recursive so that the kernel can
evaluate it; the fuel `n + 1` always suffices). -/
def natDigitsAux : ℕ → ℕ → List Char
  | 0, _ => []
  | fuel + 1, n =>
    if n < 10 then [Char.ofNat (48 + n)]
    else natDigitsAux fuel (n / 10) ++ [Char.ofNat (48 + n % 10)]

def natDigits (n : ℕ) : List Char :=
  natDigitsAux (n + 1) n

def natRepr (n : ℕ) : String :=
  String.mk (natDigits n)

def intReprStr (i : ℤ) : String :=
  if i < 0 then "-" ++ natRepr (-i).toNat else natRepr i.toNat

/-- Rendering of a rational in the serialized JSON.  `json.dump` prints the
Python float's shortest decimal form; the exact decimal text plays no role in
any claim, so the number is rendered as numerator/denominator. -/
def qRepr (q : ℚ) : String :=
  intReprStr q.num ++ "/" ++ natRepr q.den

/-- JSON string literal; escaping is not modelled (no claim exercises it). -/
def quoteStr (s : String) : String :=
  "\"" ++ s ++ "\""

def joinComma : List String → String
  | [] => ""
  | [x] => x
  | x :: xs => x ++ ", " ++ joinComma xs

/-- Serialization of one segment dict, keys in insertion order. -/
def jsonOfSeg (s : Segment) : String :=
  "\x7b\"start_time\": " ++ qRepr s.start_time ++
  ", \"end_time\": " ++ qRepr s.end_time ++
  ", \"description\": " ++ quoteStr s.description ++
  ", \"noun\": " ++ quoteStr s.noun ++
  ", \"verb\": " ++ quoteStr s.verb ++
  ", \"tags\": [" ++ joinComma (s.tags.map quoteStr) ++ "]\x7d"

/-- Serialization of the whole record, keys in template insertion order, the
`status` key present only when the dict carries it.  `json.dump(...,
ensure_ascii=False, indent=2)`: UTF-8 text verbatim; the indentation
whitespace is not modelled (it affects no claim). -/
def jsonOfRecord (r : AnnRecord) : String :=
  "\x7b\"video_path\": " ++ quoteStr r.video_path ++
  ", \"video_name\": " ++ quoteStr r.video_name ++
  ", \"duration\": " ++ qRepr r.duration ++
  ", \"segments\": [" ++ joinComma (r.segments.map jsonOfSeg) ++ "]" ++
  ", \"annotated\": " ++ (if r.annotated then "true" else "false") ++
  ", \"annotator\": " ++ quoteStr r.annotator ++
  ", \"timestamp\": " ++ quoteStr r.timestamp ++
  (match r.status with
   | none => ""
   | some st => ", \"status\": " ++ quoteStr st) ++ "\x7d"

/-- First `n` characters, modelling how much of the stream reached the file
before a mid-write failure. -/
def strTake (n : ℕ) (s : String) : String :=
  String.mk (s.data.take n)

/-- How the underlying I/O behaves during one save: succeed; fail in the
pre-`try` path derivation (`get_annotation_path`'s `mkdir` raises — the
exception propagates to the caller, nothing stamped or written); fail at
`open` inside the `try` (caught, nothing written, the old file intact); or
fail after `n` characters of `json.dump` output inside the `try` (caught,
the old content already truncated away by mode `'w'`). -/
inductive WriteOutcome where
  | ok
  | failPath
  | failOpen
  | failWrite (n : ℕ)
deriving DecidableEq

/-- `DataManager.save_annotation` under an injected I/O outcome.  Returns the
outcome visible to the caller (`some b` = the boolean result `b` was
returned, `none` = an exception escaped `save_annotation`), the in-memory
record as the caller sees it afterwards, and the resulting file content
(`none` = no file). -/
def save_to_disk (now : String) (outcome : WriteOutcome) (r : AnnRecord)
    (disk : Option String) : Option Bool × AnnRecord × Option String :=
  match outcome with
  | .ok => (some true, save_record now r, some (jsonOfRecord (save_record now r)))
  | .failPath => (none, r, disk)
  | .failOpen => (some false, save_record now r, disk)
  | .failWrite n =>
    (some false, save_record now r, some (strTake n (jsonOfRecord (save_record now r))))

/-- C5 counterexample record. -/
def c5rec : AnnRecord :=
  { video_path := "v.mp4", video_name := "v.mp4", duration := 1,
    segments := [], annotated := false, annotator := "", timestamp := "OLD",
    status := none }

/-- C5 counterexample: the claim fails on two counts.  A failing `mkdir` in
the pre-`try` path derivation makes `save_annotation` raise to the caller —
no boolean result at all — refuting "never raises".  And on a save that
fails two characters into the write, the function does return `False`, but
the in-memory record is NOT equal to its pre-save value (its `timestamp` was
stamped before the write), and the file now holds a two-character partial
serialization — visibly neither the old content (there was none) nor the
full new serialization.  `open(..., 'w')` with a direct `json.dump` is not
write-to-temp-then-rename. -/
theorem C5_counterexample :
    (save_to_disk "NEW" .failPath c5rec none).1 = none ∧
    (save_to_disk "NEW" (.failWrite 2) c5rec none).1 = some false ∧
    (save_to_disk "NEW" (.failWrite 2) c5rec none).2.1 ≠ c5rec ∧
    (save_to_disk "NEW" (.failWrite 2) c5rec none).2.2 = some "\x7b\"" ∧
    (save_to_disk "NEW" (.failWrite 2) c5rec none).2.2 ≠
      some (jsonOfRecord ((save_to_disk "NEW" (.failWrite 2) c5rec none).2.1)) := by
  refine ⟨rfl, rfl, by decide, by decide, by decide⟩

/-- C5 (amended): for failures inside the `try` block (timestamp stamp,
open, write/serialize) the save reports failure as a boolean result — `true`
is returned exactly on success — but the annotation-path derivation with its
`mkdir` runs before the `try`, and an exception there propagates to the
caller (the only outcome with no boolean result), leaving record and file
untouched.  Moreover the in-memory record's `timestamp` is stamped before
writing, so every caught failure leaves the record changed; the
serialization is written directly to the target file (truncating on open),
so a mid-write failure leaves the truncated partial content visible; only a
failure at `open` itself leaves the previous file intact. -/
theorem C5_save_behavior (now : String) (r : AnnRecord) (disk : Option String)
    (n : ℕ) :
    save_to_disk now .ok r disk =
      (some true, save_record now r, some (jsonOfRecord (save_record now r))) ∧
    save_to_disk now .failPath r disk = (none, r, disk) ∧
    save_to_disk now .failOpen r disk = (some false, save_record now r, disk) ∧
    save_to_disk now (.failWrite n) r disk =
      (some false, save_record now r,
        some (strTake n (jsonOfRecord (save_record now r)))) ∧
    (∀ o : WriteOutcome, ((save_to_disk now o r disk).1 = some true ↔ o = .ok)) ∧
    (∀ o : WriteOutcome, ((save_to_disk now o r disk).1 = none ↔ o = .failPath)) := by
  refine ⟨rfl, rfl, rfl, rfl, ?_, ?_⟩ <;> intro o <;> cases o <;> simp [save_to_disk]

/-! ## Time codec (`AnnotationPanel.parse_time` / `format_time`,
`annotation_panel.py` lines 160-179)

The Python code computes in binary64 floats.  Floats are modelled as exact
rationals with `rnd` — round to nearest, ties to even, 53-bit significand —
applied at every arithmetic step that rounds in IEEE-754. -/

/-- Python `text.split(sep)` for a one-character separator. -/
def splitOnChar (c : Char) : List Char → List (List Char)
  | [] => [[]]
  | x :: xs =>
    if x = c then [] :: splitOnChar c xs
    else
      match splitOnChar c xs with
      | [] => [[x]]
      | h :: t => (x :: h) :: t

def digitVal (ch : Char) : ℕ :=
  ch.toNat - 48

/-- Digit run with single underscores allowed between digits, accumulating
the value — the tail of Python `int(text)`'s accepted syntax. -/
def digitsCore : List Char → ℕ → Option ℕ
  | [], acc => some acc
  | ch :: rest, acc =>
    if ch = '_' then
      match rest with
      | [] => none
      | ch2 :: rest2 =>
        if ch2.isDigit then digitsCore rest2 (acc * 10 + digitVal ch2) else none
    else if ch.isDigit then digitsCore rest (acc * 10 + digitVal ch) else none

def digitsVal : List Char → Option ℕ
  | [] => none
  | ch :: rest => if ch.isDigit then digitsCore rest (digitVal ch) else none

/-- Python `int(text)` on a character list: optional surrounding whitespace,
optional sign, then a digit run (underscores between digits allowed).
Returns `none` where Python raises `ValueError`.  (Python also accepts
non-ASCII decimal digits; not modelled, no claim depends on them.) -/
def pyIntCore : List Char → Option ℤ
  | [] => none
  | ch :: rest =>
    if ch = '+' then (digitsVal rest).map (fun n => (n : ℤ))
    else if ch = '-' then (digitsVal rest).map (fun n => -(n : ℤ))
    else (digitsVal (ch :: rest)).map (fun n => (n : ℤ))

def pyInt (l : List Char) : Option ℤ :=
  pyIntCore (pyStripChars l)

/-! ### Binary64 rounding -/

/-- Two to an integer power, as a rational. -/
def pow2 (e : ℤ) : ℚ :=
  if 0 ≤ e then ((2 ^ e.toNat : ℕ) : ℚ) else (((2 ^ (-e).toNat : ℕ) : ℚ))⁻¹

/-- Fuel-recursive base-2 logarithm on naturals (kernel-evaluable). -/
def log2Fuel : ℕ → ℕ → ℕ
  | 0, _ => 0
  | fuel + 1, n => if 2 ≤ n then log2Fuel fuel (n / 2) + 1 else 0

def natLog2 (n : ℕ) : ℕ :=
  log2Fuel n n

/-- Floor of the base-2 logarithm of a positive rational. -/
def flog2 (q : ℚ) : ℤ :=
  let e0 : ℤ := (natLog2 q.num.natAbs : ℤ) - (natLog2 q.den : ℤ)
  if pow2 e0 ≤ q then e0 else e0 - 1

/-- Round a rational to the nearest integer, ties to even. -/
def roundHalfEven (m : ℚ) : ℤ :=
  let f := ⌊m⌋
  let r := m - (f : ℚ)
  if r < 1 / 2 then f
  else if 1 / 2 < r then f + 1
  else if f % 2 = 0 then f else f + 1

def rndPos (q : ℚ) : ℚ :=
  let e := flog2 q
  ((roundHalfEven (q * pow2 (52 - e)) : ℤ) : ℚ) * pow2 (e - 52)

/-- Round a real (exact rational) value to the nearest binary64 double,
ties to even.  Overflow and subnormals are far outside this code's value
ranges and are not modelled. -/
def rnd (q : ℚ) : ℚ :=
  if q = 0 then 0 else if 0 < q then rndPos q else -rndPos (-q)

/-- Python `int(x)` on a float: truncate toward zero. -/
def pyTrunc (q : ℚ) : ℤ :=
  if 0 ≤ q then ⌊q⌋ else -⌊-q⌋

/-- Python float `x // y` (CPython computes it via `fmod`; for the in-range
positive values at hand it is the exact floor of the exact quotient). -/
def pyFloorDiv (x y : ℚ) : ℚ :=
  ((⌊x / y⌋ : ℤ) : ℚ)

/-- Python float `x % y` for positive `y` (`fmod`, exact in IEEE-754). -/
def pyMod (x y : ℚ) : ℚ :=
  x - y * ((⌊x / y⌋ : ℤ) : ℚ)

/-! ### parse_time -/

/-- Conversion of a Python int to a float, as performed inside the mixed
`int + float` addition: raises `OverflowError` — caught by the parser's bare
`except`, hence `none` here — exactly when the magnitude rounds to `2^1024`
or beyond, i.e. when `|i| >= 2^1024 - 2^970` (checked against CPython:
`float(2^1024 - 2^970)` raises, one less converts to the largest double). -/
def pyIntToFloatChecked (i : ℤ) : Option ℚ :=
  if ((2 ^ 1024 - 2 ^ 970 : ℕ) : ℤ) ≤ |i| then none else some (rnd ((i : ℚ)))

/-- Python int `/` int true division: correctly rounded to binary64, raising
`OverflowError` (`none` here) exactly when the rounded quotient's magnitude
reaches `2^1024`. -/
def pyDivIntChecked (a b : ℤ) : Option ℚ :=
  if ((2 ^ 1024 : ℕ) : ℚ) ≤ |rnd ((a : ℚ) / (b : ℚ))| then none
  else some (rnd ((a : ℚ) / (b : ℚ)))

/-- The body of `AnnotationPanel.parse_time` after `time_str.split(':')`:
exactly two parts required; the seconds part is split on `'.'`; all three
fields go through `int(...)`; any exception (`ValueError` from `int`,
`OverflowError` from the float operations) is caught by the bare `except`
and `None` returned.  The value `int(minutes) * 60 + secs + ms / 1000` is
integer arithmetic up to the final two float operations: the true division
`ms / 1000` and the int-plus-float addition, each correctly rounded and each
able to raise `OverflowError` for a few-hundred-digit field.  (The final
float-plus-float addition overflows silently to IEEE infinity rather than
raising; that regime — both operands near `2^1024` — is represented here by
the unrounded rational sum and evaluated by no claim.) -/
def parseParts (parts : List (List Char)) : Option ℚ :=
  match parts with
  | [minutesPart, secondsPart] =>
    match splitOnChar '.' secondsPart with
    | [] => none
    | secsPart :: msParts =>
      match pyInt secsPart with
      | none => none
      | some secs =>
        match (match msParts with
               | [] => some (0 : ℤ)
               | msPart :: _ => pyInt msPart) with
        | none => none
        | some ms =>
          match pyInt minutesPart with
          | none => none
          | some minutes =>
            match pyDivIntChecked ms 1000 with
            | none => none
            | some msf =>
              match pyIntToFloatChecked (minutes * 60 + secs) with
              | none => none
              | some mf => some (rnd (mf + msf))
  | _ => none

/-- `AnnotationPanel.parse_time` (binary64 semantics). -/
def parse_time (s : String) : Option ℚ :=
  parseParts (splitOnChar ':' s.data)

/-- Exact-arithmetic variant of `parseParts`, following the spec's ideal time
codec (`parse(text) -> seconds`): identical structure, but the arithmetic is
exact — no binary64 rounding. -/
def parsePartsExact (parts : List (List Char)) : Option ℚ :=
  match parts with
  | [minutesPart, secondsPart] =>
    match splitOnChar '.' secondsPart with
    | [] => none
    | secsPart :: msParts =>
      match pyInt secsPart with
      | none => none
      | some secs =>
        match (match msParts with
               | [] => some (0 : ℤ)
               | msPart :: _ => pyInt msPart) with
        | none => none
        | some ms =>
          match pyInt minutesPart with
          | none => none
          | some minutes =>
            some (((minutes * 60 + secs : ℤ) : ℚ) + (ms : ℚ) / 1000)
  | _ => none

/-- Exact-arithmetic `parse_time` (spec's ideal codec). -/
def parse_time_exact (s : String) : Option ℚ :=
  parsePartsExact (splitOnChar ':' s.data)

/-! ### format_time -/

/-- Zero-padded decimal of a natural to width `w` (Python `f"..."` `0Nd`
formatting for non-negative values). -/
def natPad (w : ℕ) (n : ℕ) : List Char :=
  List.replicate (w - (natDigits n).length) '0' ++ natDigits n

/-- Zero-padded decimal of an integer to width `w` (sign-aware, as in
Python's format mini-language). -/
def intPad (w : ℕ) (i : ℤ) : List Char :=
  if i < 0 then '-' :: natPad (w - 1) (-i).toNat else natPad w i.toNat

/-- `AnnotationPanel.format_time` (binary64 semantics):
`minutes = int(seconds // 60)`, `secs = int(seconds % 60)`,
`milliseconds = int((seconds - int(seconds)) * 1000)`, then
`f"MM:SS.mmm"` with zero padding.  The subtraction and the multiplication by
1000 are float operations and round; `int(...)` truncates toward zero. -/
def format_time (x : ℚ) : String :=
  String.mk
    (intPad 2 (pyTrunc (pyFloorDiv x 60)) ++ ':' ::
     (intPad 2 (pyTrunc (pyMod x 60)) ++ '.' ::
      intPad 3 (pyTrunc (rnd (rnd (x - ((pyTrunc x : ℤ) : ℚ)) * 1000)))))

/-- Exact-arithmetic `format_time` (spec's ideal codec): same structure
without binary64 rounding. -/
def format_time_exact (x : ℚ) : String :=
  String.mk
    (intPad 2 (pyTrunc (pyFloorDiv x 60)) ++ ':' ::
     (intPad 2 (pyTrunc (pyMod x 60)) ++ '.' ::
      intPad 3 (pyTrunc ((x - ((pyTrunc x : ℤ) : ℚ)) * 1000))))

/-- The canonical zero-padded `MM:SS.mmm` rendering of a time value. -/
def canonicalTime (m s ms : ℕ) : String :=
  String.mk
    (intPad 2 (m : ℤ) ++ ':' ::
     (intPad 2 (s : ℤ) ++ '.' :: intPad 3 (ms : ℤ)))

/-! ### Supporting lemmas about the codec building blocks -/

theorem splitOnChar_not_mem {c : Char} {l : List Char} (h : c ∉ l) :
    splitOnChar c l = [l] := by
  induction l with
  | nil => rfl
  | cons x xs ih =>
    have hx : x ≠ c := fun e => h (e ▸ List.mem_cons_self x xs)
    have hxs : c ∉ xs := fun hm => h (List.mem_cons_of_mem x hm)
    unfold splitOnChar
    rw [if_neg hx, ih hxs]

theorem splitOnChar_append {c : Char} {a : List Char} (b : List Char)
    (h : c ∉ a) :
    splitOnChar c (a ++ c :: b) = a :: splitOnChar c b := by
  induction a with
  | nil => simp [splitOnChar]
  | cons x xs ih =>
    have hx : x ≠ c := fun e => h (e ▸ List.mem_cons_self x xs)
    have hxs : c ∉ xs := fun hm => h (List.mem_cons_of_mem x hm)
    show splitOnChar c (x :: (xs ++ c :: b)) = (x :: xs) :: splitOnChar c b
    simp only [splitOnChar]
    rw [if_neg hx, ih hxs]

theorem isPySpace_eq_false_of_digit {ch : Char} (h : ch.isDigit = true) :
    isPySpace ch = false := by
  unfold isPySpace
  apply decide_eq_false
  rintro (rfl | rfl | rfl | rfl | rfl | rfl) <;> exact absurd h (by decide)

theorem pyStripChars_digits {l : List Char} (h : l.all Char.isDigit = true) :
    pyStripChars l = l := by
  simp only [List.all_eq_true] at h
  have h1 : l.dropWhile isPySpace = l := by
    cases l with
    | nil => rfl
    | cons ch rest =>
      rw [List.dropWhile_cons,
        isPySpace_eq_false_of_digit (h ch (List.mem_cons_self ch rest))]
      simp
  have h2 : l.reverse.dropWhile isPySpace = l.reverse := by
    cases hr : l.reverse with
    | nil => rfl
    | cons ch rest =>
      have hch : ch ∈ l := by
        rw [← List.mem_reverse, hr]
        exact List.mem_cons_self ch rest
      rw [List.dropWhile_cons, isPySpace_eq_false_of_digit (h ch hch)]
      simp
  unfold pyStripChars
  rw [h1, h2, List.reverse_reverse]

/-- The numeric value of a digit run, as folded up by `digitsCore`. -/
def digitsValue (l : List Char) : ℕ :=
  l.foldl (fun a ch => a * 10 + digitVal ch) 0

theorem digitsCore_all {l : List Char} (acc : ℕ)
    (h : l.all Char.isDigit = true) :
    digitsCore l acc = some (l.foldl (fun a ch => a * 10 + digitVal ch) acc) := by
  induction l generalizing acc with
  | nil => rfl
  | cons ch rest ih =>
    simp only [List.all_cons, Bool.and_eq_true] at h
    have hu : ch ≠ '_' := by
      intro e
      rw [e] at h
      exact absurd h.1 (by decide)
    unfold digitsCore
    rw [if_neg hu, if_pos h.1, ih _ h.2]
    rfl

theorem digitsVal_all {l : List Char} (h : l.all Char.isDigit = true)
    (hne : l ≠ []) :
    digitsVal l = some (digitsValue l) := by
  cases l with
  | nil => exact absurd rfl hne
  | cons ch rest =>
    have hh := h
    simp only [List.all_cons, Bool.and_eq_true] at hh
    show (if ch.isDigit = true then digitsCore rest (digitVal ch) else none) =
      some (digitsValue (ch :: rest))
    rw [if_pos hh.1, digitsCore_all _ hh.2]
    simp [digitsValue]

theorem pyInt_digits {l : List Char} (h : l.all Char.isDigit = true)
    (hne : l ≠ []) :
    pyInt l = some ((digitsValue l : ℕ) : ℤ) := by
  cases l with
  | nil => exact absurd rfl hne
  | cons ch rest =>
    have hh := h
    simp only [List.all_cons, Bool.and_eq_true] at hh
    have h1 : ch ≠ '+' := by
      intro e
      rw [e] at hh
      exact absurd hh.1 (by decide)
    have h2 : ch ≠ '-' := by
      intro e
      rw [e] at hh
      exact absurd hh.1 (by decide)
    unfold pyInt
    rw [pyStripChars_digits h]
    show (if ch = '+' then (digitsVal rest).map (fun n => (n : ℤ))
      else if ch = '-' then (digitsVal rest).map (fun n => -(n : ℤ))
      else (digitsVal (ch :: rest)).map (fun n => (n : ℤ))) =
        some ((digitsValue (ch :: rest) : ℕ) : ℤ)
    rw [if_neg h1, if_neg h2, digitsVal_all h hne]
    rfl

theorem digitVal_le_nine {ch : Char} (h : ch.isDigit = true) :
    digitVal ch ≤ 9 := by
  unfold Char.isDigit at h
  rw [Bool.and_eq_true] at h
  obtain ⟨-, h2⟩ := h
  have h3 : ch.val.toNat ≤ 57 :=
    UInt32.toNat_le_of_le (by decide) (of_decide_eq_true h2)
  unfold digitVal Char.toNat
  omega

theorem digitsAccVal_lt {l : List Char} (acc : ℕ)
    (h : l.all Char.isDigit = true) :
    l.foldl (fun a ch => a * 10 + digitVal ch) acc < (acc + 1) * 10 ^ l.length := by
  induction l generalizing acc with
  | nil => simp
  | cons ch rest ih =>
    simp only [List.all_cons, Bool.and_eq_true] at h
    have hd := digitVal_le_nine h.1
    have step := ih (acc * 10 + digitVal ch) h.2
    simp only [List.foldl_cons, List.length_cons]
    have hle : (acc * 10 + digitVal ch + 1) * 10 ^ rest.length ≤
        (acc + 1) * 10 ^ (rest.length + 1) := by
      calc (acc * 10 + digitVal ch + 1) * 10 ^ rest.length
          ≤ (acc * 10 + 10) * 10 ^ rest.length := mul_le_mul_right' (by omega) _
        _ = (acc + 1) * 10 ^ (rest.length + 1) := by ring
    exact lt_of_lt_of_le step hle

theorem digitsValue_lt {l : List Char} (h : l.all Char.isDigit = true) :
    digitsValue l < 10 ^ l.length := by
  simpa [digitsValue] using digitsAccVal_lt (l := l) 0 h

theorem not_sep_of_digits {l : List Char} (h : l.all Char.isDigit = true) :
    ':' ∉ l ∧ '.' ∉ l := by
  simp only [List.all_eq_true] at h
  constructor <;> intro hm <;> exact absurd (h _ hm) (by decide)

set_option maxRecDepth 8000 in
theorem natPad_spec2 :
    ∀ m, m < 100 → (natPad 2 m).all Char.isDigit = true ∧
      digitsValue (natPad 2 m) = m ∧ natPad 2 m ≠ [] := by decide

set_option maxRecDepth 100000 in
theorem natPad_spec3 :
    ∀ ms, ms < 1000 → (natPad 3 ms).all Char.isDigit = true ∧
      digitsValue (natPad 3 ms) = ms ∧ natPad 3 ms ≠ [] := by decide

theorem intPad_ofNat (w n : ℕ) : intPad w (n : ℤ) = natPad w n := by
  unfold intPad
  rw [if_neg (by omega)]
  simp

theorem pyTrunc_intCast (z : ℤ) : pyTrunc ((z : ℚ)) = z := by
  unfold pyTrunc
  split
  · exact Int.floor_intCast z
  · rw [show -((z : ℚ)) = (((-z : ℤ)) : ℚ) by push_cast; ring, Int.floor_intCast]
    ring

theorem floor_natCast_add_small (n : ℕ) (x : ℚ) (h0 : 0 ≤ x) (h1 : x < 1) :
    ⌊(n : ℚ) + x⌋ = n := by
  rw [show ((n : ℚ)) = (((n : ℤ)) : ℚ) by push_cast; ring, Int.floor_int_add]
  rw [Int.floor_eq_zero_iff.mpr ⟨h0, h1⟩]
  ring

theorem pyTrunc_natCast (n : ℕ) : pyTrunc ((n : ℚ)) = (n : ℤ) := by
  unfold pyTrunc
  rw [if_pos (by positivity)]
  exact_mod_cast Int.floor_natCast n

/-! ## C4: format after parse -/

set_option maxRecDepth 100000 in
/-- C4 counterexample: the round-trip fails on the code as written.  First,
binary64 truncation loses a millisecond: parsing `"00:01.007"` yields the
double nearest to 1.007, which is slightly below it, and
`int((seconds - int(seconds)) * 1000)` then truncates `6.999...` to `6`, so
formatting returns `"00:01.006"`.  Second, valid but non-canonical strings
are reformatted rather than reproduced (`"0:0.0"` formats as `"00:00.000"`). -/
theorem C4_counterexample :
    (parse_time "00:01.007").map format_time = some "00:01.006" ∧
    some "00:01.006" ≠ some "00:01.007" ∧
    (parse_time "0:0.0").map format_time = some "00:00.000" ∧
    some "00:00.000" ≠ some "0:0.0" := by
  refine ⟨?_, by decide, ?_, by decide⟩
  · with_unfolding_all rfl
  · with_unfolding_all rfl

/-- C4 (amended): under exact rational arithmetic — the spec's ideal codec,
without the implementation's binary64 rounding — the round-trip holds for
every canonical zero-padded `MM:SS.mmm` string with minutes < 100,
seconds < 60 and a three-digit millisecond field: parsing yields exactly
`60*m + s + ms/1000` seconds and formatting that value reproduces the string
verbatim. -/
theorem C4_roundtrip_exact (m s ms : ℕ) (hm : m < 100) (hs : s < 60)
    (hms : ms < 1000) :
    parse_time_exact (canonicalTime m s ms) =
      some ((m : ℚ) * 60 + (s : ℚ) + (ms : ℚ) / 1000) ∧
    format_time_exact ((m : ℚ) * 60 + (s : ℚ) + (ms : ℚ) / 1000) =
      canonicalTime m s ms := by
  obtain ⟨ham, hvm, hnm⟩ := natPad_spec2 m hm
  obtain ⟨has, hvs, hns⟩ := natPad_spec2 s (by omega)
  obtain ⟨hams, hvms, hnms⟩ := natPad_spec3 ms hms
  have hmsq1 : (ms : ℚ) / 1000 < 1 := by
    rw [div_lt_one (by norm_num : (0:ℚ) < 1000)]
    exact_mod_cast hms
  have hmsq0 : (0:ℚ) ≤ (ms : ℚ) / 1000 := by positivity
  have ht0 : (0:ℚ) ≤ (s : ℚ) + (ms : ℚ) / 1000 := by positivity
  have ht60 : (s : ℚ) + (ms : ℚ) / 1000 < 60 := by
    have h1 : (s : ℚ) ≤ 59 := by exact_mod_cast (by omega : s ≤ 59)
    linarith
  have e2 : splitOnChar '.' (natPad 2 s ++ '.' :: natPad 3 ms) =
      [natPad 2 s, natPad 3 ms] := by
    rw [splitOnChar_append _ (not_sep_of_digits has).2,
      splitOnChar_not_mem (not_sep_of_digits hams).2]
  have e1 : splitOnChar ':' (natPad 2 m ++ ':' :: (natPad 2 s ++ '.' :: natPad 3 ms)) =
      [natPad 2 m, natPad 2 s ++ '.' :: natPad 3 ms] := by
    rw [splitOnChar_append _ (not_sep_of_digits ham).1]
    rw [splitOnChar_not_mem ?hc]
    case hc =>
      intro hmem
      rcases List.mem_append.mp hmem with h | h
      · exact (not_sep_of_digits has).1 h
      · rcases List.mem_cons.mp h with h | h
        · exact absurd h (by decide)
        · exact (not_sep_of_digits hams).1 h
  constructor
  · simp only [parse_time_exact, canonicalTime]
    rw [intPad_ofNat, intPad_ofNat, intPad_ofNat]
    rw [e1]
    simp only [parsePartsExact]
    rw [e2]
    simp only [pyInt_digits has hns, pyInt_digits hams hnms, pyInt_digits ham hnm,
      hvm, hvs, hvms]
    congr 1
    push_cast
    ring
  · have hfl : ⌊((m : ℚ) * 60 + (s : ℚ) + (ms : ℚ) / 1000) / 60⌋ = (m : ℤ) := by
      rw [show ((m : ℚ) * 60 + (s : ℚ) + (ms : ℚ) / 1000) / 60 =
          (m : ℚ) + ((s : ℚ) + (ms : ℚ) / 1000) / 60 by ring]
      exact floor_natCast_add_small m _ (by positivity)
        ((div_lt_one (by norm_num)).mpr ht60)
    have hq1 : pyFloorDiv ((m : ℚ) * 60 + (s : ℚ) + (ms : ℚ) / 1000) 60 =
        ((m : ℤ) : ℚ) := by
      unfold pyFloorDiv
      rw [hfl]
    have hq2 : pyMod ((m : ℚ) * 60 + (s : ℚ) + (ms : ℚ) / 1000) 60 =
        (s : ℚ) + (ms : ℚ) / 1000 := by
      unfold pyMod
      rw [hfl]
      push_cast
      ring
    have htr2 : pyTrunc ((s : ℚ) + (ms : ℚ) / 1000) = (s : ℤ) := by
      unfold pyTrunc
      rw [if_pos ht0, floor_natCast_add_small s _ hmsq0 hmsq1]
    have htr0 : pyTrunc ((m : ℚ) * 60 + (s : ℚ) + (ms : ℚ) / 1000) =
        ((m * 60 + s : ℕ) : ℤ) := by
      unfold pyTrunc
      rw [if_pos (by positivity)]
      rw [show (m : ℚ) * 60 + (s : ℚ) + (ms : ℚ) / 1000 =
          ((m * 60 + s : ℕ) : ℚ) + (ms : ℚ) / 1000 by push_cast; ring]
      exact floor_natCast_add_small _ _ hmsq0 hmsq1
    have hmsv : ((m : ℚ) * 60 + (s : ℚ) + (ms : ℚ) / 1000 -
        (((m * 60 + s : ℕ) : ℤ) : ℚ)) * 1000 = ((ms : ℕ) : ℚ) := by
      push_cast
      ring
    simp only [format_time_exact, canonicalTime]
    rw [hq1, pyTrunc_intCast, hq2, htr2, htr0, hmsv, pyTrunc_natCast]

theorem C4_witness :
    (0 : ℕ) < 100 ∧ (1 : ℕ) < 60 ∧ (7 : ℕ) < 1000 ∧
    (parse_time_exact (canonicalTime 0 1 7) =
        some (((0 : ℕ) : ℚ) * 60 + ((1 : ℕ) : ℚ) + ((7 : ℕ) : ℚ) / 1000) ∧
      format_time_exact (((0 : ℕ) : ℚ) * 60 + ((1 : ℕ) : ℚ) + ((7 : ℕ) : ℚ) / 1000) =
        canonicalTime 0 1 7) :=
  ⟨by norm_num, by norm_num, by norm_num,
    C4_roundtrip_exact 0 1 7 (by norm_num) (by norm_num) (by norm_num)⟩

/-! ## C6: segment-creation validation (`AnnotationPanel.add_segment`,
`annotation_panel.py` lines 181-230; the same check order appears in
`VideoAnnotator.render_segment_input`, `video_annotator.py` lines 75-85) -/

/-- The four outcomes of the add-segment handler: the three warning dialogs
and the success path that emits the built segment. -/
inductive SegCheck where
  | formatError
  | orderError
  | boundsError
  | ok (seg : Segment)
deriving DecidableEq

/-- `AnnotationPanel.add_segment`: with the two parsed timestamps (the
`parse_time` results) and the current video duration, reject in order:
unparseable time, `start_time >= end_time`, `end_time > duration`; otherwise
build the segment via `DataManager.create_segment` with the stripped
description and `tags=[]`, then attach the stripped noun and verb. -/
def add_segment (startVal endVal : Option ℚ) (duration : ℚ)
    (description nounText verbText : String) : SegCheck :=
  match startVal, endVal with
  | some st, some en =>
    if st ≥ en then .orderError
    else if en > duration then .boundsError
    else
      .ok { create_segment st en (pyStrip description) (some []) with
            noun := pyStrip nounText, verb := pyStrip verbText }
  | _, _ => .formatError

/-- C6 counterexample: the claim's boundary acceptance fails for a zero
duration (reachable: `get_video_duration` returns 0.0 when probing fails).
With `start = 0` and `end = duration = 0` the handler rejects through the
`start_time >= end_time` branch instead of accepting. -/
theorem C6_counterexample :
    add_segment (some 0) (some 0) 0 "" "" "" = .orderError ∧
    ∀ sg : Segment, add_segment (some 0) (some 0) 0 "" "" "" ≠ .ok sg := by
  refine ⟨rfl, ?_⟩
  intro sg h
  exact absurd h (by simp [add_segment])

/-- C6 (amended): for every pair of parsed timestamps and every duration, the
handler rejects when `start >= end` and rejects when `end > duration`; it
accepts the boundary case `start = 0`, `end = duration` provided the duration
is positive (for duration 0 the boundary case collapses into the
`start >= end` rejection). -/
theorem C6_segment_validation (st en duration : ℚ) (d n v : String) :
    (st ≥ en → add_segment (some st) (some en) duration d n v = .orderError) ∧
    (st < en → en > duration →
      add_segment (some st) (some en) duration d n v = .boundsError) ∧
    (∀ t1 t2 : Option ℚ, (t1 = none ∨ t2 = none) →
      add_segment t1 t2 duration d n v = .formatError) ∧
    (0 < duration → add_segment (some 0) (some duration) duration d n v =
      .ok { start_time := 0, end_time := duration, description := pyStrip d,
            noun := pyStrip n, verb := pyStrip v, tags := [] }) := by
  refine ⟨?_, ?_, ?_, ?_⟩
  · intro h
    simp only [add_segment]
    rw [if_pos h]
  · intro h1 h2
    simp only [add_segment]
    rw [if_neg (not_le.mpr h1), if_pos h2]
  · intro t1 t2 h
    rcases t1 with _ | q1
    · rfl
    · rcases t2 with _ | q2
      · rfl
      · rcases h with h | h <;> exact absurd h (by simp)
  · intro hd
    simp only [add_segment]
    rw [if_neg (not_le.mpr hd), if_neg (lt_irrefl duration)]
    rfl

theorem C6_witness :
    add_segment (some 5) (some 3) 10 "" "" "" = .orderError ∧
    add_segment (some 1) (some 20) 10 "" "" "" = .boundsError ∧
    add_segment none (some 1) 10 "" "" "" = .formatError ∧
    add_segment (some 0) (some 10) 10 " a " "b" "c" =
      .ok { start_time := 0, end_time := 10, description := pyStrip " a ",
            noun := pyStrip "b", verb := pyStrip "c", tags := [] } :=
  ⟨(C6_segment_validation 5 3 10 "" "" "").1 (by norm_num),
   (C6_segment_validation 1 20 10 "" "" "").2.1 (by norm_num) (by norm_num),
   (C6_segment_validation 0 1 10 "" "" "").2.2.1 none (some 1) (Or.inl rfl),
   (C6_segment_validation 0 10 10 " a " "b" "c").2.2.2 (by norm_num)⟩

/-! ## C7: what `parse_time` accepts and rejects -/

set_option maxRecDepth 100000 in
/-- C7 counterexample: the claim fails in both directions.  `parse_time`
accepts strings outside the claimed pattern rather than signalling an error:
a millisecond field of 1000 (outside 0–999) parses as one full second; a
negative minutes field parses to a negative time; surrounding whitespace in
a field is accepted by `int(...)` — each contradicts "for every other input
string parse signals an error value".  And a 320-digit seconds field —
inside the claimed pattern, whose "non-negative integers" are unbounded — is
rejected as `None`: converting the parsed integer to a float raises
`OverflowError`, which the bare `except` turns into `None`. -/
theorem C7_counterexample :
    parse_time "0:0.1000" = some 1 ∧
    parse_time "-1:5" = some (-55) ∧
    parse_time " 1:2" = some 62 ∧
    parse_time ("1:" ++ String.mk (List.replicate 320 '9')) = none := by
  refine ⟨?_, ?_, ?_, ?_⟩ <;> with_unfolding_all rfl

set_option maxRecDepth 100000 in
/-- C7 (amended): `parse_time` returns `none` (the error value) rather than
raising whenever the input does not split on `':'` into exactly two parts or
a field fails integer parsing, and it accepts every `minutes:seconds` input
whose two fields are plain digit runs small enough for the float arithmetic
— here up to 300 digits per field, comfortably below the `OverflowError`
threshold near 309 digits (the counterexample shows a 320-digit field being
rejected).  The claimed examples behave as stated: `"abc"`, `"1:2:3"`, `""`
and a non-numeric millisecond field are rejected as `none`, while the
structurally well-formed `"1:600"` parses to 660 seconds.  But acceptance is
broader than the claimed pattern: the millisecond field may carry any number
of digits and any value (see the counterexample), fields may carry signs,
surrounding whitespace and underscores (Python `int`), and parts after a
second `'.'` are ignored. -/
theorem C7_parse_shape :
    (∀ parts : List (List Char), parts.length ≠ 2 → parseParts parts = none) ∧
    (∀ s : String, parse_time s = parseParts (splitOnChar ':' s.data)) ∧
    (∀ a b : List Char, a.all Char.isDigit = true → b.all Char.isDigit = true →
      a ≠ [] → b ≠ [] → a.length ≤ 300 → b.length ≤ 300 →
      (parseParts [a, b]).isSome = true) ∧
    parse_time "abc" = none ∧
    parse_time "1:2:3" = none ∧
    parse_time "" = none ∧
    parse_time "1:2.x" = none ∧
    parse_time "1:600" = some 660 := by
  refine ⟨?_, fun _ => rfl, ?_, by decide, by decide, by decide, by decide, ?_⟩
  · intro parts h
    rcases parts with _ | ⟨a, _ | ⟨b, _ | ⟨c, rest⟩⟩⟩
    · rfl
    · rfl
    · exact absurd rfl h
    · rfl
  · intro a b ha hb hna hnb hla hlb
    have h1 : splitOnChar '.' b = [b] := splitOnChar_not_mem (not_sep_of_digits hb).2
    have hva : ((digitsValue a : ℕ) : ℤ) < 10 ^ 300 := by
      have h2 : digitsValue a < 10 ^ 300 :=
        lt_of_lt_of_le (digitsValue_lt ha) (Nat.pow_le_pow_right (by norm_num) hla)
      exact_mod_cast h2
    have hvb : ((digitsValue b : ℕ) : ℤ) < 10 ^ 300 := by
      have h2 : digitsValue b < 10 ^ 300 :=
        lt_of_lt_of_le (digitsValue_lt hb) (Nat.pow_le_pow_right (by norm_num) hlb)
      exact_mod_cast h2
    have hdiv : pyDivIntChecked 0 1000 = some 0 := by with_unfolding_all rfl
    have hconv : pyIntToFloatChecked
        (((digitsValue a : ℕ) : ℤ) * 60 + ((digitsValue b : ℕ) : ℤ)) =
        some (rnd (((((digitsValue a : ℕ) : ℤ) * 60 +
          ((digitsValue b : ℕ) : ℤ) : ℤ) : ℚ))) := by
      have hlt : |((digitsValue a : ℕ) : ℤ) * 60 + ((digitsValue b : ℕ) : ℤ)| <
          ((2 ^ 1024 - 2 ^ 970 : ℕ) : ℤ) := by
        rw [abs_of_nonneg (by positivity)]
        have hnum : (10 : ℤ) ^ 300 * 60 + 10 ^ 300 ≤
            ((2 ^ 1024 - 2 ^ 970 : ℕ) : ℤ) := by norm_num
        linarith
      unfold pyIntToFloatChecked
      rw [if_neg (not_le.mpr hlt)]
    simp [parseParts, h1, pyInt_digits hb hnb, pyInt_digits ha hna, hdiv, hconv]
  · with_unfolding_all rfl

theorem C7_witness :
    parseParts [['1'], ['2'], ['3']] = none ∧
    parse_time "4:5" = parseParts (splitOnChar ':' "4:5".data) ∧
    (parseParts [['1'], ['2']]).isSome = true :=
  ⟨C7_parse_shape.1 [['1'], ['2'], ['3']] (by decide),
   C7_parse_shape.2.1 "4:5",
   C7_parse_shape.2.2.1 ['1'] ['2'] (by decide) (by decide) (by decide) (by decide)
     (by decide) (by decide)⟩

end CSVD
